import Mathlib

/-!
Verification of the two S3 example programs of this repository:
`src/set_acl.cpp` (read-modify-write of a bucket/object access-control list)
and `src/put_object_async.cpp` (asynchronous upload with a
mutex/condition-variable completion handshake).

The C++ sources are shallowly embedded below: the AWS SDK model classes
become Lean structures, the two program functions become pure Lean functions
over those structures, remote calls are modelled by an explicit fault oracle
plus a store state, and the mutex/condition-variable handshake becomes a
small interleaving transition system.
-/

/-- `Aws::S3::Model::Permission` (values used by `set_acl.cpp`). -/
inductive Permission where
  | NOT_SET
  | FULL_CONTROL
  | WRITE
  | WRITE_ACP
  | READ
  | READ_ACP
deriving DecidableEq

/-- `Aws::S3::Model::Type`, the grantee type enum. -/
inductive GranteeType where
  | NOT_SET
  | CanonicalUser
  | AmazonCustomerByEmail
  | Group
deriving DecidableEq

/-- `Aws::S3::Model::Grantee`.  A default-constructed grantee has no string
field set (modelled as `none`) and type `NOT_SET`. -/
structure Grantee where
  displayName : Option String := none
  emailAddress : Option String := none
  id : Option String := none
  type : GranteeType := GranteeType.NOT_SET
  uri : Option String := none
deriving DecidableEq

/-- `Aws::S3::Model::Owner`. -/
structure Owner where
  displayName : Option String := none
  id : Option String := none
deriving DecidableEq

/-- `Aws::S3::Model::Grant`: one (grantee, permission) pair.  A
default-constructed grant has a default grantee and permission `NOT_SET`. -/
structure Grant where
  grantee : Grantee := {}
  permission : Permission := Permission.NOT_SET
deriving DecidableEq

/-- `Aws::S3::Model::AccessControlPolicy`: an owner plus an ordered grant
sequence. -/
structure AccessControlPolicy where
  owner : Owner := {}
  grants : List Grant := []
deriving DecidableEq

/-- `GetPermission` (`set_acl.cpp` lines 38-51): exact-match lookup of the
permission name; any other string falls through to `NOT_SET`. -/
def GetPermission (access : String) : Permission :=
  if access = "FULL_CONTROL" then Permission.FULL_CONTROL
  else if access = "WRITE" then Permission.WRITE
  else if access = "READ" then Permission.READ
  else if access = "WRITE_ACP" then Permission.WRITE_ACP
  else if access = "READ_ACP" then Permission.READ_ACP
  else Permission.NOT_SET

/-- Body of the grant-normalization loop of `SetAclForBucket`
(`set_acl.cpp` lines 84-104): copy the permission, copy every grantee
field, then hard-set the grantee type to `CanonicalUser`. -/
def bucketNormalizeGrant (acp_grant : Grant) : Grant :=
  let updated_grant : Grant := {}
  let updated_grantee : Grantee := acp_grant.grantee
  let updated_grantee := { updated_grantee with type := GranteeType.CanonicalUser }
  let updated_grant := { updated_grant with permission := acp_grant.permission }
  let updated_grant := { updated_grant with grantee := updated_grantee }
  updated_grant

/-- Body of the grant-normalization loop of `SetAclForObject`
(`set_acl.cpp` lines 218-238), textually duplicated from the bucket path. -/
def objectNormalizeGrant (acp_grant : Grant) : Grant :=
  let updated_grant : Grant := {}
  let updated_grantee : Grantee := acp_grant.grantee
  let updated_grantee := { updated_grantee with type := GranteeType.CanonicalUser }
  let updated_grant := { updated_grant with permission := acp_grant.permission }
  let updated_grant := { updated_grant with grantee := updated_grantee }
  updated_grant

/-- The new grant appended by `SetAclForBucket` (`set_acl.cpp` lines
107-113): a default grant whose grantee gets only `SetID(grantee_id)` and
`SetType(CanonicalUser)`, with the mapped permission. -/
def bucketNewGrant (grantee_id permission : String) : Grant :=
  let new_grant : Grant := {}
  let new_grantee : Grantee := {}
  let new_grantee := { new_grantee with id := some grantee_id }
  let new_grantee := { new_grantee with type := GranteeType.CanonicalUser }
  let new_grant := { new_grant with grantee := new_grantee }
  let new_grant := { new_grant with permission := GetPermission permission }
  new_grant

/-- The new grant appended by `SetAclForObject` (`set_acl.cpp` lines
241-247), textually duplicated from the bucket path. -/
def objectNewGrant (grantee_id permission : String) : Grant :=
  let new_grant : Grant := {}
  let new_grantee : Grantee := {}
  let new_grantee := { new_grantee with id := some grantee_id }
  let new_grantee := { new_grantee with type := GranteeType.CanonicalUser }
  let new_grant := { new_grant with grantee := new_grantee }
  let new_grant := { new_grant with permission := GetPermission permission }
  new_grant

/-- The access-control policy that `SetAclForBucket` builds from the fetched
policy `result` (`set_acl.cpp` lines 77-119): set the fetched owner, set the
fetched grants (line 80, later overwritten), map the normalization loop over
the fetched grants, append the new grant, and set the resulting grant vector
on the policy. -/
def bucketBuildAcp (result : AccessControlPolicy) (grantee_id permission : String) :
    AccessControlPolicy :=
  let acp : AccessControlPolicy := {}
  let acp := { acp with owner := result.owner }
  let acp := { acp with grants := result.grants }
  let updated_grants : List Grant := result.grants.map bucketNormalizeGrant
  let updated_grants := updated_grants ++ [bucketNewGrant grantee_id permission]
  let acp := { acp with grants := updated_grants }
  acp

/-- The access-control policy that `SetAclForObject` builds from the fetched
policy `result` (`set_acl.cpp` lines 211-253); identical to the bucket path
except that the intermediate `SetGrants` of line 80 is commented out. -/
def objectBuildAcp (result : AccessControlPolicy) (grantee_id permission : String) :
    AccessControlPolicy :=
  let acp : AccessControlPolicy := {}
  let acp := { acp with owner := result.owner }
  let updated_grants : List Grant := result.grants.map objectNormalizeGrant
  let updated_grants := updated_grants ++ [objectNewGrant grantee_id permission]
  let acp := { acp with grants := updated_grants }
  acp

/-- A store-reported error: `Aws::Client::AWSError`, observed through
`GetExceptionName()` and `GetMessage()`. -/
structure S3Error where
  exceptionName : String
  message : String
deriving DecidableEq

/-- Modelled from the spec: the external Object Store Client state (spec
section 6).  Every bucket and every object has a current access-control
policy; `GetBucketAcl`/`GetObjectAcl` read it and a successful
`PutBucketAcl`/`PutObjectAcl` replaces it atomically. -/
structure Store where
  bucketAcl : String → AccessControlPolicy
  objectAcl : String → String → AccessControlPolicy

/-- One remote call issued by `set_acl.cpp` against the store client. -/
inductive RemoteCall where
  | getBucketAcl (bucket : String)
  | putBucketAcl (bucket : String) (acp : AccessControlPolicy)
  | getObjectAcl (bucket key : String)
  | putObjectAcl (bucket key : String) (acp : AccessControlPolicy)
deriving DecidableEq

/-- One line printed by `set_acl.cpp` on `std::cout`, carrying exactly the
data the source prints. -/
inductive AclOutput where
  | originalGetBucketAclError (e : S3Error)
  | putBucketAclError (e : S3Error)
  | updatedGetBucketAclError (e : S3Error)
  | updatedBucketAcl (grants : List Grant)
  | originalGetObjectAclError (e : S3Error)
  | putObjectAclError (e : S3Error)
deriving DecidableEq

/-- Fault oracle for the three remote calls of `SetAclForBucket`:
`none` means the call succeeds, `some e` means it fails with error `e`. -/
structure BucketFaults where
  getAclError : Option S3Error := none
  putAclError : Option S3Error := none
  verifyGetError : Option S3Error := none

/-- Fault oracle for the two remote calls of `SetAclForObject`. -/
structure ObjectFaults where
  getAclError : Option S3Error := none
  putAclError : Option S3Error := none

/-- Result of running one `set_acl.cpp` entry point: the final store state,
the remote calls issued in order, and the printed output. -/
structure AclRunResult where
  store : Store
  calls : List RemoteCall
  output : List AclOutput

/-- `SetAclForBucket` (`set_acl.cpp` lines 53-183): fetch the bucket ACL
(abort on failure, printing the error), build the merged policy, put it
(abort on failure, printing the error), then re-fetch and print the updated
grants for verification (the write is kept even if the verify fetch fails). -/
def SetAclForBucket (faults : BucketFaults) (st : Store)
    (bucket_name grantee_id permission : String) : AclRunResult :=
  match faults.getAclError with
  | some e =>
      { store := st
        calls := [RemoteCall.getBucketAcl bucket_name]
        output := [AclOutput.originalGetBucketAclError e] }
  | none =>
      let result := st.bucketAcl bucket_name
      let acp := bucketBuildAcp result grantee_id permission
      match faults.putAclError with
      | some e =>
          { store := st
            calls := [RemoteCall.getBucketAcl bucket_name,
                      RemoteCall.putBucketAcl bucket_name acp]
            output := [AclOutput.putBucketAclError e] }
      | none =>
          let st' : Store :=
            { st with bucketAcl := fun b => if b = bucket_name then acp else st.bucketAcl b }
          match faults.verifyGetError with
          | some e =>
              { store := st'
                calls := [RemoteCall.getBucketAcl bucket_name,
                          RemoteCall.putBucketAcl bucket_name acp,
                          RemoteCall.getBucketAcl bucket_name]
                output := [AclOutput.updatedGetBucketAclError e] }
          | none =>
              { store := st'
                calls := [RemoteCall.getBucketAcl bucket_name,
                          RemoteCall.putBucketAcl bucket_name acp,
                          RemoteCall.getBucketAcl bucket_name]
                output := [AclOutput.updatedBucketAcl (st'.bucketAcl bucket_name).grants] }

/-- `SetAclForObject` (`set_acl.cpp` lines 185-271): fetch the object ACL
(abort on failure, printing the error), build the merged policy, put it
(abort on failure, printing the error); no verification re-fetch. -/
def SetAclForObject (faults : ObjectFaults) (st : Store)
    (bucket_name object_name grantee_id permission : String) : AclRunResult :=
  match faults.getAclError with
  | some e =>
      { store := st
        calls := [RemoteCall.getObjectAcl bucket_name object_name]
        output := [AclOutput.originalGetObjectAclError e] }
  | none =>
      let result := st.objectAcl bucket_name object_name
      let acp := objectBuildAcp result grantee_id permission
      match faults.putAclError with
      | some e =>
          { store := st
            calls := [RemoteCall.getObjectAcl bucket_name object_name,
                      RemoteCall.putObjectAcl bucket_name object_name acp]
            output := [AclOutput.putObjectAclError e] }
      | none =>
          let st' : Store :=
            { st with objectAcl := fun b k =>
                if b = bucket_name ∧ k = object_name then acp else st.objectAcl b k }
          { store := st'
            calls := [RemoteCall.getObjectAcl bucket_name object_name,
                      RemoteCall.putObjectAcl bucket_name object_name acp]
            output := [] }

/-- `Aws::S3::Model::PutObjectRequest` as filled in by
`put_s3_object_async`: bucket, key, and the body stream (modelled by the
name of the file backing the `Aws::FStream`). -/
structure PutObjectRequest where
  bucket : String := ""
  key : String := ""
  body : Option String := none
deriving DecidableEq

/-- `Aws::Client::AsyncCallerContext`, carrying the correlation UUID. -/
structure AsyncCallerContext where
  uuid : String := ""
deriving DecidableEq

/-- `Aws::Client::ClientConfiguration` (only the region field is used). -/
structure ClientConfiguration where
  region : String := ""
deriving DecidableEq

/-- `Aws::S3::Model::PutObjectOutcome`: the eventual result of the
asynchronous store call, delivered to the completion handler. -/
inductive PutObjectOutcome where
  | success
  | failure (e : S3Error)
deriving DecidableEq

/-- Result of one `put_s3_object_async` call: the boolean return value, the
client configuration built, the asynchronous submissions issued to the store
client (request paired with its caller context), and the lines printed. -/
structure SubmitResult where
  returnValue : Bool
  clientConfig : ClientConfiguration
  clientCalls : List (PutObjectRequest × AsyncCallerContext)
  output : List String

/-- `put_s3_object_async` (`put_object_async.cpp` lines 86-124): check that
the file exists (on failure print the NoSuchFile error and return `false`
without touching the client); otherwise build the client configuration,
fill in the request, tag the caller context with the object name as UUID,
submit `PutObjectAsync`, and return `true` immediately. -/
def put_s3_object_async (file_exists : String → Bool)
    (s3_bucket_name s3_object_name file_name region : String) : SubmitResult :=
  if ¬ file_exists file_name then
    { returnValue := false
      clientConfig := {}
      clientCalls := []
      output := ["ERROR: NoSuchFile: The specified file does not exist"] }
  else
    let clientConfig : ClientConfiguration := {}
    let clientConfig := if ¬ region.isEmpty then { clientConfig with region := region }
      else clientConfig
    let object_request : PutObjectRequest := {}
    let object_request := { object_request with bucket := s3_bucket_name }
    let object_request := { object_request with key := s3_object_name }
    let object_request := { object_request with body := some file_name }
    let context : AsyncCallerContext := {}
    let context := { context with uuid := s3_object_name }
    { returnValue := true
      clientConfig := clientConfig
      clientCalls := [(object_request, context)]
      output := [] }

/-- The line printed by `put_object_async_finished`
(`put_object_async.cpp` lines 64-72) for a given outcome and context. -/
def put_object_async_finished_output (outcome : PutObjectOutcome)
    (context : AsyncCallerContext) : String :=
  match outcome with
  | PutObjectOutcome.success => "Finished uploading " ++ context.uuid
  | PutObjectOutcome.failure e =>
      "ERROR: " ++ e.exceptionName ++ ": " ++ e.message

/-- A `put_s3_object_async` call followed by the later asynchronous
completion with outcome `outcome`: the first component is everything the
caller observes at the moment the call returns, the second is the
completion handler's printed line (delivered later, only if a submission
happened).  The submit result is computed before — and therefore
independently of — the outcome. -/
def put_then_finish (file_exists : String → Bool)
    (s3_bucket_name s3_object_name file_name region : String)
    (outcome : PutObjectOutcome) : SubmitResult × List String :=
  let res := put_s3_object_async file_exists s3_bucket_name s3_object_name file_name region
  (res,
   if res.returnValue then
     [put_object_async_finished_output outcome { uuid := s3_object_name }]
   else [])

/-- Who currently holds `upload_mutex`. -/
inductive LockOwner where
  | free
  | handler
  | waiter
deriving DecidableEq

/-- Program counter of the completion handler `put_object_async_finished`
(`put_object_async.cpp` lines 75-78), after the output line is printed:
`start` = about to lock; `locked` = holds the lock, about to set the flag;
`flagSet` = flag set, still holds the lock; `unlocked` = lock released,
about to call `notify_one`; `done` = returned. -/
inductive HandlerPc where
  | start
  | locked
  | flagSet
  | unlocked
  | done
deriving DecidableEq

/-- Program counter of the waiting thread inside
`upload_variable.wait(lock, pred)` (`put_object_async.cpp` line 147):
`checking` = holds the lock and is about to evaluate the predicate;
`blocked` = released the lock and is blocked on the condition variable;
`waking` = woken (by the signal or spuriously), reacquiring the lock;
`done` = `wait` has returned with the lock held. -/
inductive WaiterPc where
  | checking
  | blocked
  | waking
  | done
deriving DecidableEq

/-- Shared state of the two threads: the global `upload_finished` flag, the
`upload_mutex` owner, and both program counters. -/
structure SyncState where
  upload_finished : Bool
  lock : LockOwner
  hpc : HandlerPc
  wpc : WaiterPc
deriving DecidableEq

/-- State at the point where both threads exist (`main` lines 142-147 has
taken the lock, reset the flag and entered the predicate check of `wait`;
the completion handler is about to run lines 75-78). -/
def syncInit : SyncState :=
  { upload_finished := false
    lock := LockOwner.waiter
    hpc := HandlerPc.start
    wpc := WaiterPc.checking }

/-- Interleaving semantics of the handshake.  Handler steps follow
`put_object_async_finished` lines 75-78; waiter steps follow the semantics
of `std::condition_variable::wait(lock, pred)`: evaluate the predicate with
the lock held, release the lock and block while it is false, and on any
wakeup — signalled or spurious (`waiterSpurious`) — reacquire the lock and
re-check the predicate. -/
inductive SyncStep : SyncState → SyncState → Prop where
  | handlerLock (s : SyncState) :
      s.hpc = HandlerPc.start → s.lock = LockOwner.free →
      SyncStep s { s with lock := LockOwner.handler, hpc := HandlerPc.locked }
  | handlerSetFlag (s : SyncState) :
      s.hpc = HandlerPc.locked →
      SyncStep s { s with upload_finished := true, hpc := HandlerPc.flagSet }
  | handlerUnlock (s : SyncState) :
      s.hpc = HandlerPc.flagSet →
      SyncStep s { s with lock := LockOwner.free, hpc := HandlerPc.unlocked }
  | handlerNotify (s : SyncState) :
      s.hpc = HandlerPc.unlocked →
      SyncStep s { s with hpc := HandlerPc.done,
                          wpc := if s.wpc = WaiterPc.blocked then WaiterPc.waking else s.wpc }
  | waiterCheckTrue (s : SyncState) :
      s.wpc = WaiterPc.checking → s.upload_finished = true →
      SyncStep s { s with wpc := WaiterPc.done }
  | waiterCheckFalse (s : SyncState) :
      s.wpc = WaiterPc.checking → s.upload_finished = false →
      SyncStep s { s with wpc := WaiterPc.blocked, lock := LockOwner.free }
  | waiterSpurious (s : SyncState) :
      s.wpc = WaiterPc.blocked →
      SyncStep s { s with wpc := WaiterPc.waking }
  | waiterReacquire (s : SyncState) :
      s.wpc = WaiterPc.waking → s.lock = LockOwner.free →
      SyncStep s { s with lock := LockOwner.waiter, wpc := WaiterPc.checking }

/-- A list of states is an execution trace when each consecutive pair is
related by `SyncStep`. -/
def IsTrace : List SyncState → Prop
  | [] => True
  | [_] => True
  | a :: b :: rest => SyncStep a b ∧ IsTrace (b :: rest)

/-- Number of steps of a trace that change the `upload_finished` flag. -/
def countFlagChanges : List SyncState → Nat
  | a :: b :: rest =>
      (if a.upload_finished ≠ b.upload_finished then 1 else 0) + countFlagChanges (b :: rest)
  | _ => 0

/-- Number of `notify_one` steps of a trace (handler pc crossing from
`unlocked` to `done`). -/
def countNotifies : List SyncState → Nat
  | a :: b :: rest =>
      (if a.hpc = HandlerPc.unlocked ∧ b.hpc = HandlerPc.done then 1 else 0) +
        countNotifies (b :: rest)
  | _ => 0

/-- Inductive invariant of the handshake: each thread holds the lock at the
program points where the source holds it, the waiter is past `wait` only
with the flag true, and the flag is true from the moment the handler set
it. -/
def SyncInv (s : SyncState) : Prop :=
  (s.wpc = WaiterPc.checking ∨ s.wpc = WaiterPc.done → s.lock = LockOwner.waiter) ∧
  (s.hpc = HandlerPc.locked ∨ s.hpc = HandlerPc.flagSet → s.lock = LockOwner.handler) ∧
  (s.wpc = WaiterPc.done → s.upload_finished = true) ∧
  (s.hpc = HandlerPc.flagSet ∨ s.hpc = HandlerPc.unlocked ∨ s.hpc = HandlerPc.done →
    s.upload_finished = true)

/-- A store in which every bucket and object carries the default (empty)
policy; used to instantiate universally quantified store states. -/
def trivialStore : Store :=
  { bucketAcl := fun _ => {}
    objectAcl := fun _ _ => {} }

theorem bucketBuildAcp_owner (r : AccessControlPolicy) (g p : String) :
    (bucketBuildAcp r g p).owner = r.owner := rfl

theorem bucketBuildAcp_grants (r : AccessControlPolicy) (g p : String) :
    (bucketBuildAcp r g p).grants =
      r.grants.map bucketNormalizeGrant ++ [bucketNewGrant g p] := rfl

theorem bucketNormalizeGrant_eq (g : Grant) :
    bucketNormalizeGrant g =
      { grantee := { g.grantee with type := GranteeType.CanonicalUser }
        permission := g.permission } := rfl

theorem bucketNewGrant_eq (gid p : String) :
    bucketNewGrant gid p =
      { grantee := { id := some gid, type := GranteeType.CanonicalUser }
        permission := GetPermission p } := rfl

theorem object_eq_bucket_normalize : objectNormalizeGrant = bucketNormalizeGrant := rfl

theorem object_eq_bucket_buildAcp : objectBuildAcp = bucketBuildAcp := by
  funext r g p
  rfl

theorem bucketNormalizeGrant_idem (g : Grant) :
    bucketNormalizeGrant (bucketNormalizeGrant g) = bucketNormalizeGrant g := rfl

theorem map_normalize_idem (gs : List Grant) :
    (gs.map bucketNormalizeGrant).map bucketNormalizeGrant = gs.map bucketNormalizeGrant := by
  induction gs with
  | nil => rfl
  | cons g gs ih => simp only [List.map_cons, bucketNormalizeGrant_idem, ih]

/-- Shape of the merged policy, proved once for the bucket path; the object
path is definitionally the same function. -/
theorem buildAcp_shape (result : AccessControlPolicy) (grantee_id permission : String) :
    (bucketBuildAcp result grantee_id permission).owner = result.owner ∧
    (bucketBuildAcp result grantee_id permission).grants.length = result.grants.length + 1 ∧
    (∀ i (h : i < result.grants.length)
       (h2 : i < (bucketBuildAcp result grantee_id permission).grants.length),
       (bucketBuildAcp result grantee_id permission).grants.get ⟨i, h2⟩ =
         { grantee := { (result.grants.get ⟨i, h⟩).grantee with
                          type := GranteeType.CanonicalUser }
           permission := (result.grants.get ⟨i, h⟩).permission }) ∧
    (bucketBuildAcp result grantee_id permission).grants.getLast? =
      some { grantee := { id := some grantee_id, type := GranteeType.CanonicalUser }
             permission := GetPermission permission } := by
  refine ⟨rfl, ?_, ?_, ?_⟩
  · rw [bucketBuildAcp_grants]
    simp
  · intro i h h2
    simp only [List.get_eq_getElem, bucketBuildAcp_grants]
    rw [List.getElem_append_left (by simpa using h)]
    simp [bucketNormalizeGrant_eq]
  · rw [bucketBuildAcp_grants, bucketNewGrant_eq, List.getLast?_concat]

/-- Concrete fetched policy used by witnesses: owner `O`, one existing
grant giving `READ` to the group grantee `g1`. -/
def acl1 : AccessControlPolicy :=
  { owner := { id := some "O" }
    grants := [{ grantee := { id := some "g1", type := GranteeType.Group }
                 permission := Permission.READ }] }

/-- C1: applying one grant `(grantee_id, permission)` to a fetched policy
with `N` grants yields a policy with the fetched owner and `N + 1` grants:
the first `N` are the originals, in order, with permission and grantee
fields unchanged except the grantee type forced to `CanonicalUser`, and the
last is a fresh grant `{grantee := {id, CanonicalUser}, permission :=
mapped permission}` with no display-name — on both the bucket path and the
object path. -/
theorem c1_apply_grant_shape (result : AccessControlPolicy) (grantee_id permission : String) :
    ((bucketBuildAcp result grantee_id permission).owner = result.owner ∧
     (bucketBuildAcp result grantee_id permission).grants.length = result.grants.length + 1 ∧
     (∀ i (h : i < result.grants.length)
        (h2 : i < (bucketBuildAcp result grantee_id permission).grants.length),
        (bucketBuildAcp result grantee_id permission).grants.get ⟨i, h2⟩ =
          { grantee := { (result.grants.get ⟨i, h⟩).grantee with
                           type := GranteeType.CanonicalUser }
            permission := (result.grants.get ⟨i, h⟩).permission }) ∧
     (bucketBuildAcp result grantee_id permission).grants.getLast? =
       some { grantee := { id := some grantee_id, type := GranteeType.CanonicalUser }
              permission := GetPermission permission }) ∧
    ((objectBuildAcp result grantee_id permission).owner = result.owner ∧
     (objectBuildAcp result grantee_id permission).grants.length = result.grants.length + 1 ∧
     (∀ i (h : i < result.grants.length)
        (h2 : i < (objectBuildAcp result grantee_id permission).grants.length),
        (objectBuildAcp result grantee_id permission).grants.get ⟨i, h2⟩ =
          { grantee := { (result.grants.get ⟨i, h⟩).grantee with
                           type := GranteeType.CanonicalUser }
            permission := (result.grants.get ⟨i, h⟩).permission }) ∧
     (objectBuildAcp result grantee_id permission).grants.getLast? =
       some { grantee := { id := some grantee_id, type := GranteeType.CanonicalUser }
              permission := GetPermission permission }) := by
  refine ⟨buildAcp_shape result grantee_id permission, ?_⟩
  rw [object_eq_bucket_buildAcp]
  exact buildAcp_shape result grantee_id permission

/-- Witness for C1 at the concrete policy `acl1` with grant
`("U2", "WRITE")`: the merged policy keeps the owner, has two grants, the
first is the original grant with type forced to `CanonicalUser`, and the
last is the new `U2`/`WRITE` grant. -/
theorem c1_apply_grant_shape_witness :
    (bucketBuildAcp acl1 "U2" "WRITE").owner = acl1.owner ∧
    (bucketBuildAcp acl1 "U2" "WRITE").grants.length = acl1.grants.length + 1 ∧
    (bucketBuildAcp acl1 "U2" "WRITE").grants.get ⟨0, by decide⟩ =
      { grantee := { id := some "g1", type := GranteeType.CanonicalUser }
        permission := Permission.READ } ∧
    (bucketBuildAcp acl1 "U2" "WRITE").grants.getLast? =
      some { grantee := { id := some "U2", type := GranteeType.CanonicalUser }
             permission := Permission.WRITE } :=
  ⟨(c1_apply_grant_shape acl1 "U2" "WRITE").1.1,
   (c1_apply_grant_shape acl1 "U2" "WRITE").1.2.1,
   (c1_apply_grant_shape acl1 "U2" "WRITE").1.2.2.1 0 (by decide) (by decide),
   (c1_apply_grant_shape acl1 "U2" "WRITE").1.2.2.2⟩

/-- C2: the permission-name mapping is a pure total function: each of the
five recognized names maps to its enum value and every other string maps to
`NOT_SET`. -/
theorem c2_get_permission_total (s : String)
    (h1 : s ≠ "FULL_CONTROL") (h2 : s ≠ "WRITE") (h3 : s ≠ "READ")
    (h4 : s ≠ "WRITE_ACP") (h5 : s ≠ "READ_ACP") :
    GetPermission "FULL_CONTROL" = Permission.FULL_CONTROL ∧
    GetPermission "WRITE" = Permission.WRITE ∧
    GetPermission "READ" = Permission.READ ∧
    GetPermission "WRITE_ACP" = Permission.WRITE_ACP ∧
    GetPermission "READ_ACP" = Permission.READ_ACP ∧
    GetPermission s = Permission.NOT_SET := by
  refine ⟨by decide, by decide, by decide, by decide, by decide, ?_⟩
  simp [GetPermission, h1, h2, h3, h4, h5]

/-- Witness for C2 at the unrecognized string `"bogus"`. -/
theorem c2_get_permission_total_witness :
    ("bogus" : String) ≠ "FULL_CONTROL" ∧
    (GetPermission "FULL_CONTROL" = Permission.FULL_CONTROL ∧
     GetPermission "WRITE" = Permission.WRITE ∧
     GetPermission "READ" = Permission.READ ∧
     GetPermission "WRITE_ACP" = Permission.WRITE_ACP ∧
     GetPermission "READ_ACP" = Permission.READ_ACP ∧
     GetPermission "bogus" = Permission.NOT_SET) :=
  ⟨by decide,
   c2_get_permission_total "bogus" (by decide) (by decide) (by decide) (by decide) (by decide)⟩

/-- C6: the merge computed by the bucket path and by the object path is the
same function of (fetched policy, grantee id, permission name); hence when
the two paths fetch equal policies they write equal policies, differing
only in which fetch/write operations carry them. -/
theorem c6_merge_paths_equal (result : AccessControlPolicy) (st sto : Store)
    (bucket key grantee_id permission : String)
    (hsame : st.bucketAcl bucket = sto.objectAcl bucket key) :
    bucketBuildAcp result grantee_id permission =
      objectBuildAcp result grantee_id permission ∧
    (SetAclForBucket {} st bucket grantee_id permission).store.bucketAcl bucket =
      (SetAclForObject {} sto bucket key grantee_id permission).store.objectAcl bucket key := by
  constructor
  · rfl
  · simp [SetAclForBucket, SetAclForObject, hsame, object_eq_bucket_buildAcp]

/-- Witness for C6 at the trivial store (where bucket and object carry the
same — empty — policy). -/
theorem c6_merge_paths_equal_witness :
    trivialStore.bucketAcl "b" = trivialStore.objectAcl "b" "k" ∧
    (bucketBuildAcp {} "g" "READ" = objectBuildAcp {} "g" "READ" ∧
     (SetAclForBucket {} trivialStore "b" "g" "READ").store.bucketAcl "b" =
       (SetAclForObject {} trivialStore "b" "k" "g" "READ").store.objectAcl "b" "k") :=
  ⟨rfl, c6_merge_paths_equal {} trivialStore trivialStore "b" "k" "g" "READ" rfl⟩

/-- C9: grant normalization is idempotent — normalizing an already
normalized grant list changes nothing, on both the bucket and the object
copy of the loop. -/
theorem c9_normalization_idempotent (grants : List Grant) :
    (grants.map bucketNormalizeGrant).map bucketNormalizeGrant =
      grants.map bucketNormalizeGrant ∧
    (grants.map objectNormalizeGrant).map objectNormalizeGrant =
      grants.map objectNormalizeGrant := by
  refine ⟨map_normalize_idem grants, ?_⟩
  rw [object_eq_bucket_normalize]
  exact map_normalize_idem grants

/-- Concrete store error used by witnesses. -/
def errAccessDenied : S3Error := { exceptionName := "AccessDenied", message := "denied" }

/-- C4: when the initial fetch of the current policy fails, both the bucket
path and the object path leave the store unchanged, print exactly the
store's error (its exception name and message), and issue no put call. -/
theorem c4_fetch_failure_no_write (bf : BucketFaults) (of : ObjectFaults) (st sto : Store)
    (bucket key grantee_id permission : String) (e e' : S3Error)
    (hb : bf.getAclError = some e) (ho : of.getAclError = some e') :
    ((SetAclForBucket bf st bucket grantee_id permission).store = st ∧
     (SetAclForBucket bf st bucket grantee_id permission).output =
       [AclOutput.originalGetBucketAclError e] ∧
     (∀ b acp, RemoteCall.putBucketAcl b acp ∉
        (SetAclForBucket bf st bucket grantee_id permission).calls)) ∧
    ((SetAclForObject of sto bucket key grantee_id permission).store = sto ∧
     (SetAclForObject of sto bucket key grantee_id permission).output =
       [AclOutput.originalGetObjectAclError e'] ∧
     (∀ b k acp, RemoteCall.putObjectAcl b k acp ∉
        (SetAclForObject of sto bucket key grantee_id permission).calls)) := by
  constructor
  · refine ⟨?_, ?_, ?_⟩ <;> simp [SetAclForBucket, hb]
  · refine ⟨?_, ?_, ?_⟩ <;> simp [SetAclForObject, ho]

/-- Witness for C4 with a concrete failing fetch against the trivial
store. -/
theorem c4_fetch_failure_no_write_witness :
    ((SetAclForBucket { getAclError := some errAccessDenied } trivialStore
        "b" "g" "READ").store = trivialStore ∧
     (SetAclForBucket { getAclError := some errAccessDenied } trivialStore
        "b" "g" "READ").output = [AclOutput.originalGetBucketAclError errAccessDenied] ∧
     (∀ b acp, RemoteCall.putBucketAcl b acp ∉
        (SetAclForBucket { getAclError := some errAccessDenied } trivialStore
          "b" "g" "READ").calls)) ∧
    ((SetAclForObject { getAclError := some errAccessDenied } trivialStore
        "b" "k" "g" "READ").store = trivialStore ∧
     (SetAclForObject { getAclError := some errAccessDenied } trivialStore
        "b" "k" "g" "READ").output = [AclOutput.originalGetObjectAclError errAccessDenied] ∧
     (∀ b k acp, RemoteCall.putObjectAcl b k acp ∉
        (SetAclForObject { getAclError := some errAccessDenied } trivialStore
          "b" "k" "g" "READ").calls)) :=
  c4_fetch_failure_no_write { getAclError := some errAccessDenied }
    { getAclError := some errAccessDenied } trivialStore trivialStore
    "b" "k" "g" "READ" errAccessDenied errAccessDenied rfl rfl

/-- C5: when the fetch succeeds but the write fails, both paths print
exactly the store's error and terminate with the store unchanged, so a
subsequent fetch of the target still observes the pre-write policy. -/
theorem c5_write_failure_atomic (bf : BucketFaults) (of : ObjectFaults) (st sto : Store)
    (bucket key grantee_id permission : String) (e e' : S3Error)
    (hbg : bf.getAclError = none) (hbp : bf.putAclError = some e)
    (hog : of.getAclError = none) (hop : of.putAclError = some e') :
    ((SetAclForBucket bf st bucket grantee_id permission).store = st ∧
     (SetAclForBucket bf st bucket grantee_id permission).store.bucketAcl bucket =
       st.bucketAcl bucket ∧
     (SetAclForBucket bf st bucket grantee_id permission).output =
       [AclOutput.putBucketAclError e]) ∧
    ((SetAclForObject of sto bucket key grantee_id permission).store = sto ∧
     (SetAclForObject of sto bucket key grantee_id permission).store.objectAcl bucket key =
       sto.objectAcl bucket key ∧
     (SetAclForObject of sto bucket key grantee_id permission).output =
       [AclOutput.putObjectAclError e']) := by
  constructor
  · refine ⟨?_, ?_, ?_⟩ <;> simp [SetAclForBucket, hbg, hbp]
  · refine ⟨?_, ?_, ?_⟩ <;> simp [SetAclForObject, hog, hop]

/-- Witness for C5 with a concrete failing write against the trivial
store. -/
theorem c5_write_failure_atomic_witness :
    ((SetAclForBucket { putAclError := some errAccessDenied } trivialStore
        "b" "g" "READ").store = trivialStore ∧
     (SetAclForBucket { putAclError := some errAccessDenied } trivialStore
        "b" "g" "READ").store.bucketAcl "b" = trivialStore.bucketAcl "b" ∧
     (SetAclForBucket { putAclError := some errAccessDenied } trivialStore
        "b" "g" "READ").output = [AclOutput.putBucketAclError errAccessDenied]) ∧
    ((SetAclForObject { putAclError := some errAccessDenied } trivialStore
        "b" "k" "g" "READ").store = trivialStore ∧
     (SetAclForObject { putAclError := some errAccessDenied } trivialStore
        "b" "k" "g" "READ").store.objectAcl "b" "k" = trivialStore.objectAcl "b" "k" ∧
     (SetAclForObject { putAclError := some errAccessDenied } trivialStore
        "b" "k" "g" "READ").output = [AclOutput.putObjectAclError errAccessDenied]) :=
  c5_write_failure_atomic { putAclError := some errAccessDenied }
    { putAclError := some errAccessDenied } trivialStore trivialStore
    "b" "k" "g" "READ" errAccessDenied errAccessDenied rfl rfl rfl rfl

/-- C3: submitting an upload whose file path does not exist fails
synchronously: the NoSuchFile error line is printed, `false` is returned,
and the store client is never invoked (no client call is issued). -/
theorem c3_no_such_file (file_exists : String → Bool)
    (bucket key file region : String) (h : file_exists file = false) :
    (put_s3_object_async file_exists bucket key file region).returnValue = false ∧
    (put_s3_object_async file_exists bucket key file region).clientCalls = [] ∧
    (put_s3_object_async file_exists bucket key file region).output =
      ["ERROR: NoSuchFile: The specified file does not exist"] := by
  refine ⟨?_, ?_, ?_⟩ <;> simp [put_s3_object_async, h]

/-- Witness for C3 on a file system with no files. -/
theorem c3_no_such_file_witness :
    (put_s3_object_async (fun _ => false) "b" "k" "f" "").returnValue = false ∧
    (put_s3_object_async (fun _ => false) "b" "k" "f" "").clientCalls = [] ∧
    (put_s3_object_async (fun _ => false) "b" "k" "f" "").output =
      ["ERROR: NoSuchFile: The specified file does not exist"] :=
  c3_no_such_file (fun _ => false) "b" "k" "f" "" rfl

/-- C8: on an existing file the submit call returns `true`, issues exactly
one asynchronous store call whose request carries the bucket, the key and
the file body and whose caller context's correlation UUID equals the object
key, and the caller-visible result is independent of the eventual
completion outcome (control returns without blocking on completion). -/
theorem c8_async_submit (file_exists : String → Bool)
    (bucket key file region : String) (h : file_exists file = true)
    (o1 o2 : PutObjectOutcome) :
    (put_s3_object_async file_exists bucket key file region).returnValue = true ∧
    (put_s3_object_async file_exists bucket key file region).clientCalls =
      [({ bucket := bucket, key := key, body := some file }, { uuid := key })] ∧
    (∀ req ctx,
       (req, ctx) ∈ (put_s3_object_async file_exists bucket key file region).clientCalls →
       ctx.uuid = key) ∧
    (put_then_finish file_exists bucket key file region o1).1 =
      (put_then_finish file_exists bucket key file region o2).1 := by
  refine ⟨?_, ?_, ?_, rfl⟩
  · simp [put_s3_object_async, h]
  · simp [put_s3_object_async, h]
  · intro req ctx hmem
    simp [put_s3_object_async, h] at hmem
    simp [hmem.2]

/-- Witness for C8 on a file system where every file exists. -/
theorem c8_async_submit_witness :
    (put_s3_object_async (fun _ => true) "b" "k" "f" "").returnValue = true ∧
    (put_s3_object_async (fun _ => true) "b" "k" "f" "").clientCalls =
      [({ bucket := "b", key := "k", body := some "f" }, { uuid := "k" })] ∧
    (∀ req ctx,
       (req, ctx) ∈ (put_s3_object_async (fun _ => true) "b" "k" "f" "").clientCalls →
       ctx.uuid = "k") ∧
    (put_then_finish (fun _ => true) "b" "k" "f" "" PutObjectOutcome.success).1 =
      (put_then_finish (fun _ => true) "b" "k" "f" ""
        (PutObjectOutcome.failure errAccessDenied)).1 :=
  c8_async_submit (fun _ => true) "b" "k" "f" "" rfl
    PutObjectOutcome.success (PutObjectOutcome.failure errAccessDenied)

/-- C10: the submit call's boolean reflects only the local file-existence
check — it equals `file_exists file`, so it is `false` exactly when the
file is missing and `true` whenever a submission occurs — while the remote
outcome is reported only through the completion handler's printed line
(success or error message), never through the return value, which is
computed independently of the outcome. -/
theorem c10_return_value_local (file_exists : String → Bool)
    (bucket key file region : String) (e : S3Error) (ctx : AsyncCallerContext)
    (o : PutObjectOutcome) :
    ((put_s3_object_async file_exists bucket key file region).returnValue =
      file_exists file) ∧
    (file_exists file = true →
      (put_s3_object_async file_exists bucket key file region).clientCalls ≠ []) ∧
    (put_object_async_finished_output (PutObjectOutcome.failure e) ctx =
      "ERROR: " ++ e.exceptionName ++ ": " ++ e.message) ∧
    (put_object_async_finished_output PutObjectOutcome.success ctx =
      "Finished uploading " ++ ctx.uuid) ∧
    ((put_then_finish file_exists bucket key file region o).1.returnValue =
      file_exists file) := by
  refine ⟨?_, ?_, rfl, rfl, ?_⟩
  · by_cases hf : file_exists file = true
    · simp [put_s3_object_async, hf]
    · simp at hf
      simp [put_s3_object_async, hf]
  · intro hf
    simp [put_s3_object_async, hf]
  · by_cases hf : file_exists file = true
    · simp [put_then_finish, put_s3_object_async, hf]
    · simp at hf
      simp [put_then_finish, put_s3_object_async, hf]

/-- Witness for C10 on a file system where every file exists, with a
concrete error and context. -/
theorem c10_return_value_local_witness :
    ((put_s3_object_async (fun _ => true) "b" "k" "f" "").returnValue =
      (fun _ => true) "f") ∧
    ((fun _ => true) "f" = true →
      (put_s3_object_async (fun _ => true) "b" "k" "f" "").clientCalls ≠ []) ∧
    (put_object_async_finished_output (PutObjectOutcome.failure errAccessDenied)
        { uuid := "k" } =
      "ERROR: " ++ errAccessDenied.exceptionName ++ ": " ++ errAccessDenied.message) ∧
    (put_object_async_finished_output PutObjectOutcome.success { uuid := "k" } =
      "Finished uploading " ++ AsyncCallerContext.uuid { uuid := "k" }) ∧
    ((put_then_finish (fun _ => true) "b" "k" "f" "" PutObjectOutcome.success).1.returnValue =
      (fun _ => true) "f") :=
  c10_return_value_local (fun _ => true) "b" "k" "f" "" errAccessDenied
    { uuid := "k" } PutObjectOutcome.success

/-- Consecutive state pairs of a trace (one entry per executed step). -/
def consecPairs : List SyncState → List (SyncState × SyncState)
  | a :: b :: rest => (a, b) :: consecPairs (b :: rest)
  | _ => []

theorem syncInv_init : SyncInv syncInit := by
  refine ⟨fun _ => rfl, ?_, ?_, ?_⟩ <;> simp [SyncInv, syncInit]

theorem syncInv_step {a b : SyncState} (h : SyncStep a b) (ha : SyncInv a) : SyncInv b := by
  obtain ⟨i1, i2, i3, i4⟩ := ha
  cases h with
  | handlerLock h1 h2 =>
      refine ⟨fun hw => ?_, fun _ => rfl, i3, fun hh => ?_⟩
      · exact absurd (h2 ▸ i1 hw) (by simp)
      · simp at hh
  | handlerSetFlag h1 =>
      refine ⟨fun hw => ?_, fun _ => i2 (Or.inl h1), fun _ => rfl, fun _ => rfl⟩
      · exact absurd ((i2 (Or.inl h1)) ▸ i1 hw) (by simp)
  | handlerUnlock h1 =>
      refine ⟨fun hw => ?_, fun hh => ?_, i3, fun _ => i4 (Or.inl h1)⟩
      · exact absurd ((i2 (Or.inr h1)) ▸ i1 hw) (by simp)
      · simp at hh
  | handlerNotify h1 =>
      by_cases hb : a.wpc = WaiterPc.blocked
      · refine ⟨fun hw => ?_, fun hh => ?_, fun hw => ?_, fun _ => i4 (Or.inr (Or.inl h1))⟩
        · simp [hb] at hw
        · simp at hh
        · simp [hb] at hw
      · refine ⟨fun hw => ?_, fun hh => ?_, fun hw => ?_, fun _ => i4 (Or.inr (Or.inl h1))⟩
        · simp only [if_neg hb] at hw
          exact i1 hw
        · simp at hh
        · simp only [if_neg hb] at hw
          exact i3 hw
  | waiterCheckTrue h1 h2 =>
      exact ⟨fun _ => i1 (Or.inl h1), i2, fun _ => h2, i4⟩
  | waiterCheckFalse h1 h2 =>
      refine ⟨fun hw => ?_, fun hh => ?_, fun hw => ?_, i4⟩
      · simp at hw
      · exact absurd ((i2 hh) ▸ i1 (Or.inl h1)) (by simp)
      · simp at hw
  | waiterSpurious h1 =>
      refine ⟨fun hw => ?_, i2, fun hw => ?_, i4⟩
      · simp at hw
      · simp at hw
  | waiterReacquire h1 h2 =>
      refine ⟨fun _ => rfl, fun hh => ?_, fun hw => ?_, i4⟩
      · exact absurd ((i2 hh) ▸ h2) (by simp)
      · simp at hw

theorem flag_monotone {a b : SyncState} (h : SyncStep a b)
    (ha : a.upload_finished = true) : b.upload_finished = true := by
  cases h <;> simp_all

theorem flag_change {a b : SyncState} (h : SyncStep a b)
    (hne : a.upload_finished ≠ b.upload_finished) :
    a.hpc = HandlerPc.locked ∧ a.upload_finished = false ∧ b.upload_finished = true := by
  cases h <;> simp_all

theorem hpc_done_step {a b : SyncState} (h : SyncStep a b)
    (ha : a.hpc = HandlerPc.done) : b.hpc = HandlerPc.done := by
  cases h <;> simp_all

theorem hpc_done_from {a b : SyncState} (h : SyncStep a b)
    (hb : b.hpc = HandlerPc.done) :
    a.hpc = HandlerPc.done ∨ a.hpc = HandlerPc.unlocked := by
  cases h <;> simp_all

theorem trace_all (P : SyncState → Prop) (hP : ∀ a b, SyncStep a b → P a → P b) :
    ∀ (t : List SyncState) (x : SyncState), IsTrace (x :: t) → P x → ∀ s ∈ x :: t, P s := by
  intro t
  induction t with
  | nil =>
      intro x _ hx s hs
      simp at hs
      exact hs ▸ hx
  | cons y ys ih =>
      intro x ht hx s hs
      rcases List.mem_cons.mp hs with h | h
      · exact h ▸ hx
      · exact ih y ht.2 (hP x y ht.1 hx) s h

theorem consec_step_inv :
    ∀ (t : List SyncState) (x : SyncState), IsTrace (x :: t) → SyncInv x →
      ∀ p ∈ consecPairs (x :: t), SyncStep p.1 p.2 ∧ SyncInv p.1 := by
  intro t
  induction t with
  | nil =>
      intro x _ _ p hp
      simp [consecPairs] at hp
  | cons y ys ih =>
      intro x ht hx p hp
      simp only [consecPairs, List.mem_cons] at hp
      rcases hp with h | h
      · exact h ▸ ⟨ht.1, hx⟩
      · exact ih y ht.2 (syncInv_step ht.1 hx) p h

theorem flagChanges_zero_of_true :
    ∀ (t : List SyncState) (x : SyncState), IsTrace (x :: t) →
      x.upload_finished = true → countFlagChanges (x :: t) = 0 := by
  intro t
  induction t with
  | nil => intro x _ _; rfl
  | cons y ys ih =>
      intro x ht hx
      have hy : y.upload_finished = true := flag_monotone ht.1 hx
      simp [countFlagChanges, hx, hy, ih y ht.2 hy]

theorem flagChanges_le_one :
    ∀ (t : List SyncState) (x : SyncState), IsTrace (x :: t) →
      countFlagChanges (x :: t) ≤ 1 := by
  intro t
  induction t with
  | nil => intro x _; simp [countFlagChanges]
  | cons y ys ih =>
      intro x ht
      by_cases hxy : x.upload_finished = y.upload_finished
      · simp only [countFlagChanges, hxy, ne_eq, not_true_eq_false, if_false]
        simpa using ih y ht.2
      · have h3 := flag_change ht.1 hxy
        have h0 := flagChanges_zero_of_true ys y ht.2 h3.2.2
        simp [countFlagChanges, hxy, h0]

theorem flagChanges_ge_one :
    ∀ (t : List SyncState) (x z : SyncState), IsTrace (x :: t) →
      (x :: t).getLast? = some z → x.upload_finished = false →
      z.upload_finished = true → 1 ≤ countFlagChanges (x :: t) := by
  intro t
  induction t with
  | nil =>
      intro x z _ hz hx hzt
      simp at hz
      rw [← hz] at hzt
      rw [hx] at hzt
      exact absurd hzt (by simp)
  | cons y ys ih =>
      intro x z ht hz hx hzt
      by_cases hxy : x.upload_finished = y.upload_finished
      · have hz' : (y :: ys).getLast? = some z := by
          rw [List.getLast?_cons_cons] at hz
          exact hz
        have h1 := ih y z ht.2 hz' (hxy ▸ hx) hzt
        simp only [countFlagChanges]
        omega
      · simp [countFlagChanges, hxy]

theorem notifies_zero_of_done :
    ∀ (t : List SyncState) (x : SyncState), IsTrace (x :: t) →
      x.hpc = HandlerPc.done → countNotifies (x :: t) = 0 := by
  intro t
  induction t with
  | nil => intro x _ _; rfl
  | cons y ys ih =>
      intro x ht hx
      have hy : y.hpc = HandlerPc.done := hpc_done_step ht.1 hx
      have hne : ¬(x.hpc = HandlerPc.unlocked ∧ y.hpc = HandlerPc.done) := by
        rw [hx]; simp
      simp [countNotifies, hne, ih y ht.2 hy]

theorem notifies_le_one :
    ∀ (t : List SyncState) (x : SyncState), IsTrace (x :: t) →
      countNotifies (x :: t) ≤ 1 := by
  intro t
  induction t with
  | nil => intro x _; simp [countNotifies]
  | cons y ys ih =>
      intro x ht
      by_cases hxy : x.hpc = HandlerPc.unlocked ∧ y.hpc = HandlerPc.done
      · have h0 := notifies_zero_of_done ys y ht.2 hxy.2
        simp [countNotifies, hxy, h0]
      · simp only [countNotifies, if_neg hxy]
        simpa using ih y ht.2

theorem notifies_ge_one :
    ∀ (t : List SyncState) (x z : SyncState), IsTrace (x :: t) →
      (x :: t).getLast? = some z → x.hpc ≠ HandlerPc.done →
      z.hpc = HandlerPc.done → 1 ≤ countNotifies (x :: t) := by
  intro t
  induction t with
  | nil =>
      intro x z _ hz hx hzt
      simp at hz
      exact absurd (hz ▸ hzt) hx
  | cons y ys ih =>
      intro x z ht hz hx hzt
      by_cases hy : y.hpc = HandlerPc.done
      · have hxu : x.hpc = HandlerPc.unlocked :=
          (hpc_done_from ht.1 hy).resolve_left hx
        simp [countNotifies, hxu, hy]
      · have hz' : (y :: ys).getLast? = some z := by
          rw [List.getLast?_cons_cons] at hz
          exact hz
        have h1 := ih y z ht.2 hz' hy hzt
        simp only [countNotifies]
        omega

/-- C7: along every execution of the completion handshake from the initial
state, (a) whenever the waiter's `wait` has returned the finished flag is
true — the predicate is re-checked, so neither a spurious wakeup nor the
signal itself causes an early return; (b) every step that changes the
finished flag is the handler's store while it holds the mutual-exclusion
lock, turning the flag from false to true; (c) the flag changes at most
once and the condition signal is issued at most once; and (d) in every
execution in which the handler has completed, the flag was set exactly
once and exactly one signal — waking the single waiter — was issued. -/
theorem c7_completion_handshake (t : List SyncState) (ht : IsTrace t)
    (h0 : t.head? = some syncInit) :
    (∀ s ∈ t, s.wpc = WaiterPc.done → s.upload_finished = true) ∧
    (∀ p ∈ consecPairs t,
       p.1.upload_finished ≠ p.2.upload_finished →
       p.1.lock = LockOwner.handler ∧ p.1.hpc = HandlerPc.locked ∧
       p.1.upload_finished = false ∧ p.2.upload_finished = true) ∧
    countFlagChanges t ≤ 1 ∧
    countNotifies t ≤ 1 ∧
    (∀ z, t.getLast? = some z → z.hpc = HandlerPc.done →
       countFlagChanges t = 1 ∧ countNotifies t = 1) := by
  cases t with
  | nil => simp at h0
  | cons x rest =>
    have hx : x = syncInit := by simpa using h0
    subst hx
    refine ⟨?_, ?_, ?_, ?_, ?_⟩
    · intro s hs hd
      exact (trace_all SyncInv (fun a b hab => syncInv_step hab) rest syncInit ht
        syncInv_init s hs).2.2.1 hd
    · intro p hp hchange
      have hpi := consec_step_inv rest syncInit ht syncInv_init p hp
      have hc := flag_change hpi.1 hchange
      exact ⟨hpi.2.2.1 (Or.inl hc.1), hc.1, hc.2.1, hc.2.2⟩
    · exact flagChanges_le_one rest syncInit ht
    · exact notifies_le_one rest syncInit ht
    · intro z hz hzd
      have hzmem : z ∈ syncInit :: rest :=
        List.mem_of_mem_getLast? (by simp [hz])
      have hzflag : z.upload_finished = true :=
        (trace_all SyncInv (fun a b hab => syncInv_step hab) rest syncInit ht
          syncInv_init z hzmem).2.2.2 (Or.inr (Or.inr hzd))
      have hf1 := flagChanges_le_one rest syncInit ht
      have hf2 := flagChanges_ge_one rest syncInit z ht hz rfl hzflag
      have hn1 := notifies_le_one rest syncInit ht
      have hn2 := notifies_ge_one rest syncInit z ht hz (by simp [syncInit]) hzd
      omega

/-- One complete interleaving of the handshake: the waiter checks the flag,
finds it false and blocks; the handler locks, sets the flag, unlocks and
signals; the waiter wakes, reacquires the lock, re-checks the predicate and
returns. -/
def c7trace : List SyncState :=
  [{ upload_finished := false, lock := LockOwner.waiter,
     hpc := HandlerPc.start, wpc := WaiterPc.checking },
   { upload_finished := false, lock := LockOwner.free,
     hpc := HandlerPc.start, wpc := WaiterPc.blocked },
   { upload_finished := false, lock := LockOwner.handler,
     hpc := HandlerPc.locked, wpc := WaiterPc.blocked },
   { upload_finished := true, lock := LockOwner.handler,
     hpc := HandlerPc.flagSet, wpc := WaiterPc.blocked },
   { upload_finished := true, lock := LockOwner.free,
     hpc := HandlerPc.unlocked, wpc := WaiterPc.blocked },
   { upload_finished := true, lock := LockOwner.free,
     hpc := HandlerPc.done, wpc := WaiterPc.waking },
   { upload_finished := true, lock := LockOwner.waiter,
     hpc := HandlerPc.done, wpc := WaiterPc.checking },
   { upload_finished := true, lock := LockOwner.waiter,
     hpc := HandlerPc.done, wpc := WaiterPc.done }]

/-- Witness for C7 on the concrete complete interleaving `c7trace`. -/
theorem c7_completion_handshake_witness :
    (∀ s ∈ c7trace, s.wpc = WaiterPc.done → s.upload_finished = true) ∧
    (∀ p ∈ consecPairs c7trace,
       p.1.upload_finished ≠ p.2.upload_finished →
       p.1.lock = LockOwner.handler ∧ p.1.hpc = HandlerPc.locked ∧
       p.1.upload_finished = false ∧ p.2.upload_finished = true) ∧
    countFlagChanges c7trace ≤ 1 ∧
    countNotifies c7trace ≤ 1 ∧
    (∀ z, c7trace.getLast? = some z → z.hpc = HandlerPc.done →
       countFlagChanges c7trace = 1 ∧ countNotifies c7trace = 1) :=
  c7_completion_handshake c7trace
    ⟨SyncStep.waiterCheckFalse _ rfl rfl,
     SyncStep.handlerLock _ rfl rfl,
     SyncStep.handlerSetFlag _ rfl,
     SyncStep.handlerUnlock _ rfl,
     SyncStep.handlerNotify _ rfl,
     SyncStep.waiterReacquire _ rfl rfl,
     SyncStep.waiterCheckTrue _ rfl rfl,
     trivial⟩
    rfl
